import Mathlib

/-!
Verification of the `aso` optimisation toolkit's `OptimisationProblem` and
`OptimisationResult` components (files `optimisation_problem.py` and
`optimisation_result.py`).

Numbers are modelled by `ℚ` (exact arithmetic), design vectors by `List ℚ`,
callables by Lean functions.  An operation that can raise a Python exception
returns `Except String _`; the raised message is the error payload.  The one
mutating operation, `compute_grad_constraints`, additionally returns the
post-call object so that the evaluation-counter and frame behaviour is
explicit.  Python list indexing `l[i]` (with a non-negative index, the only
kind the code uses) is modelled by `List.get?` with an `IndexError` on
out-of-range access.
-/

/-- Design vectors: one rational entry per design variable. -/
abbrev Vec := List ℚ

/-- Embedding of the `OptimisationProblem` object: the attributes stored by
`OptimisationProblem.__init__` together with the mutable evaluation counter. -/
structure OptimisationProblem where
  objective : Vec → ℚ
  grad_objective : Option (Vec → Vec)
  lb : Option Vec
  ub : Option Vec
  i_constraints : Option (List (Vec → ℚ))
  grad_i_constraints : Option (List (Vec → Vec))
  e_constraints : Option (List (Vec → ℚ))
  grad_e_constraints : Option (List (Vec → Vec))
  minima : Option (List Vec)
  grad_constraints_evaluations : ℕ

/-- Embedding of `OptimisationProblem.__init__`: the body only stores its
arguments and initialises the counter to 0; it contains no validation and no
raise statement, so the result is always `Except.ok`. -/
def OptimisationProblem.initE (objective : Vec → ℚ) (grad_objective : Option (Vec → Vec))
    (lower_bounds upper_bounds : Option Vec)
    (i_constraints : Option (List (Vec → ℚ))) (grad_i_constraints : Option (List (Vec → Vec)))
    (e_constraints : Option (List (Vec → ℚ))) (grad_e_constraints : Option (List (Vec → Vec)))
    (minima : Option (List Vec)) : Except String OptimisationProblem :=
  Except.ok
    { objective := objective
      grad_objective := grad_objective
      lb := lower_bounds
      ub := upper_bounds
      i_constraints := i_constraints
      grad_i_constraints := grad_i_constraints
      e_constraints := e_constraints
      grad_e_constraints := grad_e_constraints
      minima := minima
      grad_constraints_evaluations := 0 }

/-- Property `m`: number of inequality constraints, `len(self._i_constraints or [])`. -/
def OptimisationProblem.m (p : OptimisationProblem) : ℕ :=
  (p.i_constraints.getD []).length

/-- Property `me`: number of equality constraints, `len(self._e_constraints or [])`. -/
def OptimisationProblem.me (p : OptimisationProblem) : ℕ :=
  (p.e_constraints.getD []).length

/-- Property `constrained`: `self.m + self.me > 0`. -/
def OptimisationProblem.constrained (p : OptimisationProblem) : Bool :=
  decide (0 < p.m + p.me)

/-- Method `compute_objective`: pure delegation to the objective callable. -/
def OptimisationProblem.compute_objective (p : OptimisationProblem) (x : Vec) : ℚ :=
  p.objective x

/-- Default finite-difference step `dx=1e-6` used by the Python signatures. -/
def dx_default : ℚ := 1 / 1000000

/-- Body of the finite-difference loop of `compute_grad_objective`: iterates the
index list `range(x.size)`, threading the working copy `x_local`. Each step
performs `x_local[i] -= dx`, evaluates backward, `x_local[i] += 2*dx`,
evaluates forward, records the quotient, then restores `x_local[i] = x[i]`.
Returns the gradient entries together with the final `x_local`. -/
def gradObjectiveLoop (f : Vec → ℚ) (x : Vec) (dx : ℚ) : List ℕ → Vec → Vec × Vec
  | [], x_local => ([], x_local)
  | i :: rest, x_local =>
    let xl1 := x_local.set i (x_local.getD i 0 - dx)
    let f_backward := f xl1
    let xl2 := xl1.set i (xl1.getD i 0 + 2 * dx)
    let f_forward := f xl2
    let gi := (f_forward - f_backward) / (2 * dx)
    let xl3 := xl2.set i (x.getD i 0)
    let r := gradObjectiveLoop f x dx rest xl3
    (gi :: r.1, r.2)

/-- Method `compute_grad_objective`: the analytic gradient callable if supplied,
else the central-difference loop over all coordinates starting from a copy of `x`. -/
def OptimisationProblem.compute_grad_objective (p : OptimisationProblem) (x : Vec) (dx : ℚ) :
    Vec :=
  match p.grad_objective with
  | some g => g x
  | none => (gradObjectiveLoop p.objective x dx (List.range x.length) x).1

/-- Python list indexing `[l[i] for i in sel]`: every index must be in range,
otherwise an `IndexError` is raised. -/
def selectList {α : Type} (l : List α) : List ℕ → Except String (List α)
  | [] => Except.ok []
  | i :: rest =>
    match l.get? i with
    | some a =>
      match selectList l rest with
      | Except.ok r => Except.ok (a :: r)
      | Except.error e => Except.error e
    | none => Except.error "IndexError"

/-- Method `compute_constraints`: raises `Unconstrained problem.` when
`m+me = 0`; otherwise evaluates the concatenation of the inequality and
equality constraint lists at `x`, the whole list when `selection is None`
and the selected entries (in selection order) otherwise. -/
def OptimisationProblem.compute_constraints (p : OptimisationProblem) (x : Vec)
    (selection : Option (List ℕ)) : Except String Vec :=
  if p.m + p.me = 0 then Except.error "Unconstrained problem."
  else
    let constraints := p.i_constraints.getD [] ++ p.e_constraints.getD []
    match selection with
    | none => Except.ok (constraints.map (fun c => c x))
    | some sel =>
      match selectList constraints sel with
      | Except.ok cs => Except.ok (cs.map (fun c => c x))
      | Except.error e => Except.error e

/-- Body of the finite-difference loop of `compute_grad_constraints`: iterates
`range(x.size)` threading `x_local`; each step perturbs coordinate `i` by
`-dx`, evaluates the (possibly selected) constraint vector, perturbs by
`+2*dx`, evaluates again, records the column `(g_forward - g_backward)/(2*dx)`,
then restores via `x_local[i] -= dx`.  Returns the columns in coordinate
order together with the final `x_local`. -/
def gradConstraintsLoop (p : OptimisationProblem) (dx : ℚ) (selection : Option (List ℕ)) :
    List ℕ → Vec → Except String (List Vec × Vec)
  | [], x_local => Except.ok ([], x_local)
  | i :: rest, x_local =>
    let xl1 := x_local.set i (x_local.getD i 0 - dx)
    match p.compute_constraints xl1 selection with
    | Except.error e => Except.error e
    | Except.ok g_backward =>
      let xl2 := xl1.set i (xl1.getD i 0 + 2 * dx)
      match p.compute_constraints xl2 selection with
      | Except.error e => Except.error e
      | Except.ok g_forward =>
        let col := List.zipWith (fun a b => (a - b) / (2 * dx)) g_forward g_backward
        let xl3 := xl2.set i (xl2.getD i 0 - dx)
        match gradConstraintsLoop p dx selection rest xl3 with
        | Except.error e => Except.error e
        | Except.ok r => Except.ok (col :: r.1, r.2)

/-- Assembles the matrix written column-wise by `grad[:, i] = ...` into its
list of rows: entry `(j, i)` is entry `j` of column `i`. -/
def colsToRows (rows : ℕ) (cols : List Vec) : List Vec :=
  (List.range rows).map (fun j => cols.map (fun col => col.getD j 0))

/-- Method `compute_grad_constraints`, returning the result together with the
post-call object.  Raises `Unconstrained problem.` when `m+me = 0`.  If either
analytic gradient list `is not None`, the concatenated analytic callables are
used (whole list, or indexed by `selection`) and the object is unchanged.
Otherwise the finite-difference loop runs and, on normal return, the counter
`grad_constraints_evaluations` is incremented by one. -/
def OptimisationProblem.compute_grad_constraints (p : OptimisationProblem) (x : Vec) (dx : ℚ)
    (selection : Option (List ℕ)) : Except String (List Vec) × OptimisationProblem :=
  if p.m + p.me = 0 then (Except.error "Unconstrained problem.", p)
  else if p.grad_i_constraints.isSome || p.grad_e_constraints.isSome then
    let grad_constraints := p.grad_i_constraints.getD [] ++ p.grad_e_constraints.getD []
    match selection with
    | none => (Except.ok (grad_constraints.map (fun grad => grad x)), p)
    | some sel =>
      match selectList grad_constraints sel with
      | Except.ok gs => (Except.ok (gs.map (fun grad => grad x)), p)
      | Except.error e => (Except.error e, p)
  else
    let rows :=
      match selection with
      | none => p.m + p.me
      | some sel => sel.length
    match gradConstraintsLoop p dx selection (List.range x.length) x with
    | Except.ok r =>
      (Except.ok (colsToRows rows r.1),
       { p with grad_constraints_evaluations := p.grad_constraints_evaluations + 1 })
    | Except.error e => (Except.error e, p)

/-- Body of the loop `for i in range(self.m + self.me): f += lm[i] * g[i]` of
`compute_lagrange_function`; indexing out of range raises `IndexError`. -/
def lagrangeLoop (lm g : Vec) : List ℕ → ℚ → Except String ℚ
  | [], f => Except.ok f
  | i :: rest, f =>
    match lm.get? i, g.get? i with
    | some lmi, some gi => lagrangeLoop lm g rest (f + lmi * gi)
    | _, _ => Except.error "IndexError"

/-- Method `compute_lagrange_function`: the objective value, plus — only when
the problem is constrained — the multiplier-weighted sum of all constraint
values. -/
def OptimisationProblem.compute_lagrange_function (p : OptimisationProblem) (x lm : Vec) :
    Except String ℚ :=
  let f := p.objective x
  if 0 < p.m + p.me then
    match p.compute_constraints x none with
    | Except.error e => Except.error e
    | Except.ok g => lagrangeLoop lm g (List.range (p.m + p.me)) f
  else Except.ok f

/-- Body of the loop `for i in range(self.m + self.me): grad += lm[i] * grad_g[i]`
of `compute_grad_lagrange_function`; the vector update is componentwise. -/
def gradLagrangeLoop (lm : Vec) (grad_g : List Vec) : List ℕ → Vec → Except String Vec
  | [], grad => Except.ok grad
  | i :: rest, grad =>
    match lm.get? i, grad_g.get? i with
    | some lmi, some gi =>
      gradLagrangeLoop lm grad_g rest (List.zipWith (fun a b => a + lmi * b) grad gi)
    | _, _ => Except.error "IndexError"

/-- Method `compute_grad_lagrange_function`, returning the result together with
the post-call object (the inner `compute_grad_constraints` call may increment
the counter).  Both inner gradient calls use the default step `1e-6`. -/
def OptimisationProblem.compute_grad_lagrange_function (p : OptimisationProblem) (x lm : Vec) :
    Except String Vec × OptimisationProblem :=
  let grad := p.compute_grad_objective x dx_default
  if 0 < p.m + p.me then
    match p.compute_grad_constraints x dx_default none with
    | (Except.ok grad_g, p1) => (gradLagrangeLoop lm grad_g (List.range (p.m + p.me)) grad, p1)
    | (Except.error e, p1) => (Except.error e, p1)
  else (Except.ok grad, p)

/-- Embedding of the `OptimiserState` enumeration. -/
inductive OptimiserState where
  | CONVERGED
  | DIVERGED
  | ENCOUNTERED_INF
  | ENCOUNTERED_NAN
  | INFEASIBLE
  | NOT_STARTED
  | REACHED_MAX_ITERATIONS
  | RUNNING
  | UNDEFINED
deriving DecidableEq

/-- Embedding of the frozen dataclass `OptimisationResult`. -/
structure OptimisationResult where
  iteration : ℤ
  x : Vec
  state : OptimiserState
  objective : Option ℚ
  lm : Option Vec
  i_constraints : Option Vec
  e_constraints : Option Vec
  step : Option Vec

/-- Names of the fields of `OptimisationResult`, for stating attribute
assignment. -/
inductive ResultField where
  | iteration
  | x
  | state
  | objective
  | lm
  | i_constraints
  | e_constraints
  | step
deriving DecidableEq

/-- Values assignable to a field of `OptimisationResult`. -/
inductive AttrValue where
  | intVal : ℤ → AttrValue
  | vecVal : Vec → AttrValue
  | stateVal : OptimiserState → AttrValue
  | ratVal : ℚ → AttrValue
  | optVecVal : Option Vec → AttrValue
  | optRatVal : Option ℚ → AttrValue

/-- Attribute assignment on an `OptimisationResult`.  The class is declared
`@dataclass(frozen=True)`, whose generated `__setattr__` raises
`FrozenInstanceError` on every assignment attempt, so no field, value or
receiver ever yields a mutated object. -/
def OptimisationResult.set_attr (_ : OptimisationResult) (_ : ResultField) (_ : AttrValue) :
    Except String OptimisationResult :=
  Except.error "FrozenInstanceError"

/-! ### List helper lemmas -/

/-- Writing back the value already stored at an index leaves a list unchanged. -/
theorem set_getD_self (l : List ℚ) (i : ℕ) : l.set i (l.getD i 0) = l := by
  induction l generalizing i with
  | nil => rfl
  | cons a t ih =>
    cases i with
    | zero => rfl
    | succ j => simpa [List.set, List.getD] using ih j

/-- Reading an in-range index just written returns the written value. -/
theorem getD_set_self (l : List ℚ) (i : ℕ) (v : ℚ) (h : i < l.length) :
    (l.set i v).getD i 0 = v := by
  simp [List.getD_eq_getElem?_getD, List.getElem?_set_self, h]

/-- In-range `get?` in terms of `getD` (any default). -/
theorem get?_eq_some_getD {α : Type} (l : List α) (i : ℕ) (d : α) (h : i < l.length) :
    l.get? i = some (l.getD i d) := by
  simp [List.getD_eq_getElem?_getD, List.get?_eq_getElem?, List.getElem?_eq_getElem h]

/-- Entrywise description of `zipWith` via `getD`. -/
theorem getD_zipWith (f : ℚ → ℚ → ℚ) (as bs : List ℚ) (j : ℕ)
    (ha : j < as.length) (hb : j < bs.length) :
    (List.zipWith f as bs).getD j 0 = f (as.getD j 0) (bs.getD j 0) := by
  induction as generalizing bs j with
  | nil => simp at ha
  | cons a t ih =>
    cases bs with
    | nil => simp at hb
    | cons b s =>
      cases j with
      | zero => rfl
      | succ k =>
        simp only [List.zipWith_cons_cons, List.getD_cons_succ]
        exact ih s k (by simpa using ha) (by simpa using hb)

/-- Entry `i` of a function mapped over `range n`. -/
theorem getD_map_range (f : ℕ → ℚ) (n i : ℕ) (h : i < n) :
    ((List.range n).map f).getD i 0 = f i := by
  simp [List.getD_eq_getElem?_getD, List.getElem?_map, List.getElem?_range h]

/-! ### Characterisation of `selectList` -/

/-- When every index is in range, `selectList` succeeds. -/
theorem selectList_ok_of_lt {α : Type} (l : List α) (sel : List ℕ)
    (h : ∀ i ∈ sel, i < l.length) : ∃ cs, selectList l sel = Except.ok cs := by
  induction sel with
  | nil => exact ⟨[], rfl⟩
  | cons i rest ih =>
    obtain ⟨cs, hcs⟩ := ih (fun j hj => h j (by simp [hj]))
    have hi : i < l.length := h i (by simp)
    have ha : l[i]? = some (l.get ⟨i, hi⟩) := by
      rw [← List.get?_eq_getElem?]
      exact List.get?_eq_get hi
    refine ⟨l.get ⟨i, hi⟩ :: cs, ?_⟩
    simp [selectList, ha, hcs]

/-- A successful `selectList` has one output per index, in selection order. -/
theorem selectList_spec {α : Type} (l : List α) (sel : List ℕ) (cs : List α)
    (h : selectList l sel = Except.ok cs) :
    cs.length = sel.length ∧ ∀ j, cs.get? j = (sel.get? j).bind fun i => l.get? i := by
  induction sel generalizing cs with
  | nil =>
    cases h
    exact ⟨rfl, by intro j; cases j <;> rfl⟩
  | cons i rest ih =>
    dsimp [selectList] at h
    cases ha : l.get? i with
    | none => rw [ha] at h; cases h
    | some a =>
      rw [ha] at h
      cases hr : selectList l rest with
      | error e => rw [hr] at h; cases h
      | ok r =>
        rw [hr] at h
        cases h
        obtain ⟨hlen, hget⟩ := ih r hr
        refine ⟨by simp [hlen], ?_⟩
        intro j
        cases j with
        | zero => simpa [List.get?_eq_getElem?] using ha.symm
        | succ k => simpa using hget k

/-! ### Characterisation of the finite-difference loops -/

/-- The objective finite-difference loop, started at `x` over in-range indices,
computes each coordinate's central difference at `x` itself and hands back the
working copy restored to `x`. -/
theorem gradObjectiveLoop_spec (f : Vec → ℚ) (x : Vec) (dx : ℚ) (idxs : List ℕ)
    (h : ∀ i ∈ idxs, i < x.length) :
    gradObjectiveLoop f x dx idxs x =
      (idxs.map (fun i =>
        (f (x.set i (x.getD i 0 + dx)) - f (x.set i (x.getD i 0 - dx))) / (2 * dx)), x) := by
  induction idxs with
  | nil => rfl
  | cons i rest ih =>
    have hi : i < x.length := h i (by simp)
    have h1 : (x.set i (x.getD i 0 - dx)).getD i 0 = x.getD i 0 - dx :=
      getD_set_self x i _ hi
    have h2 : (x.set i (x.getD i 0 - dx)).set i (x.getD i 0 - dx + 2 * dx)
        = x.set i (x.getD i 0 + dx) := by
      rw [List.set_set]
      congr 1
      ring
    have h3 : (x.set i (x.getD i 0 + dx)).set i (x.getD i 0) = x := by
      rw [List.set_set]
      exact set_getD_self x i
    simp only [gradObjectiveLoop, h1, h2, h3, List.map_cons]
    rw [ih (fun j hj => h j (by simp [hj]))]

/-- The total length of the concatenated constraint list is `m + me`. -/
theorem constraints_length (p : OptimisationProblem) :
    (p.i_constraints.getD [] ++ p.e_constraints.getD []).length = p.m + p.me := by
  simp [OptimisationProblem.m, OptimisationProblem.me]

/-- On a constrained problem, `compute_constraints` without selection returns
the full vector of constraint values. -/
theorem compute_constraints_none (p : OptimisationProblem) (x : Vec) (h : 0 < p.m + p.me) :
    p.compute_constraints x none =
      Except.ok ((p.i_constraints.getD [] ++ p.e_constraints.getD []).map (fun c => c x)) := by
  unfold OptimisationProblem.compute_constraints
  rw [if_neg (by omega)]

/-- On a constrained problem with a valid selection, `compute_constraints`
returns the selected constraint values. -/
theorem compute_constraints_some (p : OptimisationProblem) (x : Vec) (sel : List ℕ)
    (cs : List (Vec → ℚ)) (h : 0 < p.m + p.me)
    (hsel : selectList (p.i_constraints.getD [] ++ p.e_constraints.getD []) sel = Except.ok cs) :
    p.compute_constraints x (some sel) = Except.ok (cs.map (fun c => c x)) := by
  unfold OptimisationProblem.compute_constraints
  rw [if_neg (by omega)]
  simp only [hsel]

/-- When constraint evaluation succeeds uniformly (value `evalF y` at every
point `y`), the constraint finite-difference loop over in-range indices
returns the central-difference columns at `x` and the working copy restored
to `x`. -/
theorem gradConstraintsLoop_spec (p : OptimisationProblem) (dx : ℚ)
    (selection : Option (List ℕ)) (evalF : Vec → Vec)
    (heval : ∀ y, p.compute_constraints y selection = Except.ok (evalF y))
    (x : Vec) (idxs : List ℕ) (h : ∀ i ∈ idxs, i < x.length) :
    gradConstraintsLoop p dx selection idxs x =
      Except.ok (idxs.map (fun i =>
        List.zipWith (fun a b => (a - b) / (2 * dx))
          (evalF (x.set i (x.getD i 0 + dx))) (evalF (x.set i (x.getD i 0 - dx)))), x) := by
  induction idxs with
  | nil => rfl
  | cons i rest ih =>
    have hi : i < x.length := h i (by simp)
    have h1 : (x.set i (x.getD i 0 - dx)).getD i 0 = x.getD i 0 - dx :=
      getD_set_self x i _ hi
    have h2 : (x.set i (x.getD i 0 - dx)).set i (x.getD i 0 - dx + 2 * dx)
        = x.set i (x.getD i 0 + dx) := by
      rw [List.set_set]
      congr 1
      ring
    have h4 : (x.set i (x.getD i 0 + dx)).getD i 0 = x.getD i 0 + dx :=
      getD_set_self x i _ (by simpa using hi)
    have h5 : (x.set i (x.getD i 0 + dx)).set i (x.getD i 0 + dx - dx) = x := by
      rw [List.set_set]
      have he : x.getD i 0 + dx - dx = x.getD i 0 := by ring
      rw [he]
      exact set_getD_self x i
    simp only [gradConstraintsLoop, heval, h1, h2, h4, h5, List.map_cons]
    rw [ih (fun j hj => h j (by simp [hj]))]

/-- Whenever the constraint finite-difference loop returns normally, the
working copy it hands back equals the vector it started from: every
perturbation is undone. -/
theorem gradConstraintsLoop_restores (p : OptimisationProblem) (dx : ℚ)
    (selection : Option (List ℕ)) (idxs : List ℕ) :
    ∀ (xl : Vec), (∀ i ∈ idxs, i < xl.length) →
    ∀ cols xlf, gradConstraintsLoop p dx selection idxs xl = Except.ok (cols, xlf) →
    xlf = xl := by
  induction idxs with
  | nil =>
    intro xl _ cols xlf hok
    cases hok
    rfl
  | cons i rest ih =>
    intro xl h cols xlf hok
    have hi : i < xl.length := h i (by simp)
    have h1 : (xl.set i (xl.getD i 0 - dx)).getD i 0 = xl.getD i 0 - dx :=
      getD_set_self xl i _ hi
    have h2 : (xl.set i (xl.getD i 0 - dx)).set i (xl.getD i 0 - dx + 2 * dx)
        = xl.set i (xl.getD i 0 + dx) := by
      rw [List.set_set]
      congr 1
      ring
    have h4 : (xl.set i (xl.getD i 0 + dx)).getD i 0 = xl.getD i 0 + dx :=
      getD_set_self xl i _ (by simpa using hi)
    have h5 : (xl.set i (xl.getD i 0 + dx)).set i (xl.getD i 0 + dx - dx) = xl := by
      rw [List.set_set]
      have he : xl.getD i 0 + dx - dx = xl.getD i 0 := by ring
      rw [he]
      exact set_getD_self xl i
    simp only [gradConstraintsLoop, h1, h2, h4, h5] at hok
    cases hb : p.compute_constraints (xl.set i (xl.getD i 0 - dx)) selection with
    | error e => rw [hb] at hok; cases hok
    | ok g_backward =>
      rw [hb] at hok
      cases hf : p.compute_constraints (xl.set i (xl.getD i 0 + dx)) selection with
      | error e => rw [hf] at hok; cases hok
      | ok g_forward =>
        rw [hf] at hok
        cases hr : gradConstraintsLoop p dx selection rest xl with
        | error e => rw [hr] at hok; cases hok
        | ok r =>
          rw [hr] at hok
          cases hok
          exact ih xl (fun j hj => h j (by simp [hj])) r.1 r.2 hr

/-- In-range `getD` commutes with `map` (any defaults). -/
theorem getD_map_of_lt {α β : Type} (f : α → β) (l : List α) (i : ℕ) (d : β) (d2 : α)
    (h : i < l.length) : (l.map f).getD i d = f (l.getD i d2) := by
  simp [List.getD_eq_getElem?_getD, List.getElem?_map, List.getElem?_eq_getElem h]

/-- With in-range indices, `selectList` returns the indexed elements. -/
theorem selectList_map_getD {α : Type} (l : List α) (d : α) (sel : List ℕ)
    (h : ∀ i ∈ sel, i < l.length) :
    selectList l sel = Except.ok (sel.map (fun i => l.getD i d)) := by
  induction sel with
  | nil => rfl
  | cons i rest ih =>
    have hi : i < l.length := h i (by simp)
    simp only [selectList, get?_eq_some_getD l i d hi, ih (fun j hj => h j (by simp [hj])),
      List.map_cons]

/-- A list is recovered from its `getD` entries over `range`. -/
theorem map_getD_range (l : List ℚ) :
    (List.range l.length).map (fun j => l.getD j 0) = l := by
  apply List.ext_getElem
  · simp
  · intro j h1 h2
    simp [List.getD_eq_getElem?_getD, List.getElem?_eq_getElem h2]

/-- The Lagrange accumulation loop adds the multiplier-weighted constraint
values to the accumulator. -/
theorem lagrangeLoop_spec (lm g : Vec) (idxs : List ℕ) (f : ℚ)
    (h : ∀ i ∈ idxs, i < lm.length ∧ i < g.length) :
    lagrangeLoop lm g idxs f
      = Except.ok (f + (idxs.map (fun i => lm.getD i 0 * g.getD i 0)).sum) := by
  induction idxs generalizing f with
  | nil => simp [lagrangeLoop]
  | cons i rest ih =>
    obtain ⟨hl, hg⟩ := h i (by simp)
    simp only [lagrangeLoop, get?_eq_some_getD lm i 0 hl, get?_eq_some_getD g i 0 hg,
      ih (f + lm.getD i 0 * g.getD i 0) (fun j hj => h j (by simp [hj])),
      List.map_cons, List.sum_cons]
    congr 1
    ring

/-- The Lagrange-gradient accumulation loop adds, componentwise, the
multiplier-weighted Jacobian rows to the accumulator. -/
theorem gradLagrangeLoop_spec (lm : Vec) (gg : List Vec) (idxs : List ℕ) (acc : Vec)
    (h : ∀ i ∈ idxs, i < lm.length ∧ i < gg.length)
    (hrow : ∀ i ∈ idxs, (gg.getD i []).length = acc.length) :
    gradLagrangeLoop lm gg idxs acc
      = Except.ok ((List.range acc.length).map (fun j =>
          acc.getD j 0 + (idxs.map (fun i => lm.getD i 0 * (gg.getD i []).getD j 0)).sum)) := by
  induction idxs generalizing acc with
  | nil =>
    simp only [gradLagrangeLoop, List.map_nil, List.sum_nil, add_zero]
    rw [map_getD_range]
  | cons i rest ih =>
    obtain ⟨hl, hg⟩ := h i (by simp)
    have hgi : (gg.getD i []).length = acc.length := hrow i (by simp)
    have hlen2 : (List.zipWith (fun a b => a + lm.getD i 0 * b) acc (gg.getD i [])).length
        = acc.length := by
      rw [List.length_zipWith, hgi, min_self]
    have ihx := ih (List.zipWith (fun a b => a + lm.getD i 0 * b) acc (gg.getD i []))
      (fun j hj => h j (by simp [hj]))
      (fun j hj => by rw [hlen2]; exact hrow j (by simp [hj]))
    simp only [gradLagrangeLoop, get?_eq_some_getD lm i 0 hl,
      get?_eq_some_getD gg i ([] : Vec) hg, ihx, hlen2]
    congr 1
    apply List.map_congr_left
    intro j hj
    have hja : j < acc.length := List.mem_range.mp hj
    rw [getD_zipWith _ acc (gg.getD i []) j hja (by omega)]
    simp only [List.map_cons, List.sum_cons]
    ring

/-! ### Case analysis of `compute_grad_constraints` -/

/-- The post-call object of `compute_grad_constraints` is either the original
problem or the original with the counter incremented by one. -/
theorem compute_grad_constraints_snd_cases (p : OptimisationProblem) (x : Vec) (dx : ℚ)
    (selection : Option (List ℕ)) :
    (p.compute_grad_constraints x dx selection).2 = p ∨
    (p.compute_grad_constraints x dx selection).2
      = { p with grad_constraints_evaluations := p.grad_constraints_evaluations + 1 } := by
  unfold OptimisationProblem.compute_grad_constraints
  by_cases h0 : p.m + p.me = 0
  · rw [if_pos h0]
    left
    rfl
  · rw [if_neg h0]
    by_cases hb : (p.grad_i_constraints.isSome || p.grad_e_constraints.isSome) = true
    · rw [if_pos hb]
      cases selection with
      | none => left; rfl
      | some sel =>
        cases hs : selectList (p.grad_i_constraints.getD [] ++ p.grad_e_constraints.getD []) sel with
        | ok gs => simp [hs]
        | error e2 => simp [hs]
    · rw [if_neg hb]
      cases hr : gradConstraintsLoop p dx selection (List.range x.length) x with
      | ok r => simp [hr]
      | error e2 => simp [hr]

/-- On the analytic path the object is returned unchanged, whatever the
selection and outcome. -/
theorem compute_grad_constraints_analytic_snd (p : OptimisationProblem) (x : Vec) (dx : ℚ)
    (selection : Option (List ℕ))
    (hg : p.grad_i_constraints.isSome ∨ p.grad_e_constraints.isSome) :
    (p.compute_grad_constraints x dx selection).2 = p := by
  have hb : (p.grad_i_constraints.isSome || p.grad_e_constraints.isSome) = true := by
    rcases hg with h | h <;> simp [h]
  unfold OptimisationProblem.compute_grad_constraints
  by_cases h0 : p.m + p.me = 0
  · rw [if_pos h0]
  · rw [if_neg h0, if_pos hb]
    cases selection with
    | none => rfl
    | some sel =>
      cases hs : selectList (p.grad_i_constraints.getD [] ++ p.grad_e_constraints.getD []) sel with
      | ok gs =>
        simp only [hs]
      | error e2 =>
        simp only [hs]

/-- A numerical-path call (no analytic gradient list supplied) that returns
normally yields the object with the counter incremented by one. -/
theorem compute_grad_constraints_num_ok (p : OptimisationProblem) (x : Vec) (dx : ℚ)
    (selection : Option (List ℕ)) (hgi : p.grad_i_constraints = none)
    (hge : p.grad_e_constraints = none) (J : List Vec) (p1 : OptimisationProblem)
    (h : p.compute_grad_constraints x dx selection = (Except.ok J, p1)) :
    p1 = { p with grad_constraints_evaluations := p.grad_constraints_evaluations + 1 } := by
  rw [hgi, hge]
  unfold OptimisationProblem.compute_grad_constraints at h
  rw [hgi, hge] at h
  simp only [Option.isSome_none, Bool.or_self, Bool.false_eq_true, if_false] at h
  by_cases h0 : p.m + p.me = 0
  · rw [if_pos h0] at h
    exact absurd (congrArg Prod.fst h) (by simp)
  · rw [if_neg h0] at h
    cases hr : gradConstraintsLoop p dx selection (List.range x.length) x with
    | error e => simp only [hr] at h; exact absurd (congrArg Prod.fst h) (by simp)
    | ok r => simp only [hr] at h; exact (congrArg Prod.snd h).symm

/-- An erroring `compute_grad_constraints` call leaves the object unchanged. -/
theorem compute_grad_constraints_error_snd (p : OptimisationProblem) (x : Vec) (dx : ℚ)
    (selection : Option (List ℕ)) (e : String) (p1 : OptimisationProblem)
    (h : p.compute_grad_constraints x dx selection = (Except.error e, p1)) :
    p1 = p := by
  unfold OptimisationProblem.compute_grad_constraints at h
  by_cases h0 : p.m + p.me = 0
  · rw [if_pos h0] at h
    exact (congrArg Prod.snd h).symm
  · rw [if_neg h0] at h
    by_cases hb : (p.grad_i_constraints.isSome || p.grad_e_constraints.isSome) = true
    · rw [if_pos hb] at h
      cases selection with
      | none => exact (congrArg Prod.snd h).symm
      | some sel =>
        cases hs : selectList (p.grad_i_constraints.getD [] ++ p.grad_e_constraints.getD []) sel with
        | ok gs => simp only [hs] at h; exact (congrArg Prod.snd h).symm
        | error e2 => simp only [hs] at h; exact (congrArg Prod.snd h).symm
    · rw [if_neg hb] at h
      cases hr : gradConstraintsLoop p dx selection (List.range x.length) x with
      | ok r => simp only [hr] at h; exact absurd (congrArg Prod.fst h) (by simp)
      | error e2 => simp only [hr] at h; exact (congrArg Prod.snd h).symm

/-- Analytic path, no selection: the Jacobian is the concatenated analytic
gradient lists evaluated at `x`, one row per supplied callable. -/
theorem compute_grad_constraints_analytic_none (p : OptimisationProblem) (x : Vec) (dx : ℚ)
    (h0 : 0 < p.m + p.me)
    (hb : (p.grad_i_constraints.isSome || p.grad_e_constraints.isSome) = true) :
    p.compute_grad_constraints x dx none
      = (Except.ok ((p.grad_i_constraints.getD [] ++ p.grad_e_constraints.getD []).map
          (fun grad => grad x)), p) := by
  unfold OptimisationProblem.compute_grad_constraints
  rw [if_neg (by omega), if_pos hb]

/-- Analytic path with a valid selection: one row per selection index, in
selection order. -/
theorem compute_grad_constraints_analytic_some (p : OptimisationProblem) (x : Vec) (dx : ℚ)
    (sel : List ℕ) (gs : List (Vec → Vec)) (h0 : 0 < p.m + p.me)
    (hb : (p.grad_i_constraints.isSome || p.grad_e_constraints.isSome) = true)
    (hsel : selectList (p.grad_i_constraints.getD [] ++ p.grad_e_constraints.getD []) sel
      = Except.ok gs) :
    p.compute_grad_constraints x dx (some sel)
      = (Except.ok (gs.map (fun grad => grad x)), p) := by
  unfold OptimisationProblem.compute_grad_constraints
  rw [if_neg (by omega), if_pos hb]
  simp only [hsel]

/-! ### Concrete problems used by witnesses and counterexamples -/

/-- An unconstrained problem (`f(v) = v0²`, no constraints, no analytic
gradients). -/
def exUnconstrained : OptimisationProblem :=
  { objective := fun v => v.getD 0 0 * v.getD 0 0
    grad_objective := none
    lb := none
    ub := none
    i_constraints := none
    grad_i_constraints := none
    e_constraints := none
    grad_e_constraints := none
    minima := none
    grad_constraints_evaluations := 0 }

/-- A problem with one inequality constraint carrying an analytic gradient and
one equality constraint carrying none. -/
def exMismatchedGrads : OptimisationProblem :=
  { objective := fun v => v.getD 0 0
    grad_objective := none
    lb := none
    ub := none
    i_constraints := some [fun v => v.getD 0 0]
    grad_i_constraints := some [fun _ => [1]]
    e_constraints := some [fun v => v.getD 0 0 - 1]
    grad_e_constraints := none
    minima := none
    grad_constraints_evaluations := 0 }

/-- A constrained problem with one inequality constraint (`v0²`) and no
analytic constraint gradients, so constraint gradients go numerical. -/
def exNumerical : OptimisationProblem :=
  { objective := fun v => v.getD 0 0
    grad_objective := none
    lb := none
    ub := none
    i_constraints := some [fun v => v.getD 0 0 * v.getD 0 0]
    grad_i_constraints := none
    e_constraints := none
    grad_e_constraints := none
    minima := none
    grad_constraints_evaluations := 0 }

/-- A problem with three inequality constraints `v0`, `v0 + 1`, `v0 + 2`. -/
def exThreeConstraints : OptimisationProblem :=
  { objective := fun v => v.getD 0 0
    grad_objective := none
    lb := none
    ub := none
    i_constraints := some [fun v => v.getD 0 0, fun v => v.getD 0 0 + 1, fun v => v.getD 0 0 + 2]
    grad_i_constraints := none
    e_constraints := none
    grad_e_constraints := none
    minima := none
    grad_constraints_evaluations := 0 }

/-- A fully analytic constrained problem: `f(v) = v0²` with gradient `[2·v0]`
and one inequality constraint `v0 - 1` with gradient `[1]`. -/
def exLagrange : OptimisationProblem :=
  { objective := fun v => v.getD 0 0 * v.getD 0 0
    grad_objective := some (fun v => [2 * v.getD 0 0])
    lb := none
    ub := none
    i_constraints := some [fun v => v.getD 0 0 - 1]
    grad_i_constraints := some [fun _ => [1]]
    e_constraints := none
    grad_e_constraints := none
    minima := none
    grad_constraints_evaluations := 0 }

/-! ### C3: unconstrained problems always raise on constraint evaluation -/

/-- C3: with no inequality and no equality constraints, both
`compute_constraints` and `compute_grad_constraints` raise the
`Unconstrained problem.` usage error for every input vector, step size and
selection, and never return a value (the object is left unchanged). -/
theorem unconstrained_always_raises (p : OptimisationProblem) (x : Vec) (dx : ℚ)
    (selection : Option (List ℕ)) (h : p.m + p.me = 0) :
    p.compute_constraints x selection = Except.error "Unconstrained problem." ∧
    p.compute_grad_constraints x dx selection = (Except.error "Unconstrained problem.", p) := by
  constructor
  · unfold OptimisationProblem.compute_constraints
    rw [if_pos h]
  · unfold OptimisationProblem.compute_grad_constraints
    rw [if_pos h]

/-- Witness for C3 at the concrete unconstrained problem `exUnconstrained`. -/
theorem unconstrained_always_raises_witness :
    exUnconstrained.m + exUnconstrained.me = 0 ∧
    exUnconstrained.compute_constraints [1, 2] none = Except.error "Unconstrained problem." ∧
    exUnconstrained.compute_grad_constraints [1, 2] dx_default none
      = (Except.error "Unconstrained problem.", exUnconstrained) :=
  ⟨rfl, (unconstrained_always_raises exUnconstrained [1, 2] dx_default none rfl).1,
    (unconstrained_always_raises exUnconstrained [1, 2] dx_default none rfl).2⟩

/-! ### C10: the Lagrangian of an unconstrained problem never raises -/

/-- C10: on an unconstrained problem (`m = me = 0`), `compute_lagrange_function`
returns exactly the objective value and `compute_grad_lagrange_function`
exactly the objective gradient, for every multiplier vector including the
empty one; neither raises and the object is unchanged. -/
theorem lagrange_unconstrained_spec (p : OptimisationProblem) (x lm : Vec)
    (h : p.m + p.me = 0) :
    p.compute_lagrange_function x lm = Except.ok (p.objective x) ∧
    p.compute_grad_lagrange_function x lm
      = (Except.ok (p.compute_grad_objective x dx_default), p) := by
  constructor
  · unfold OptimisationProblem.compute_lagrange_function
    rw [if_neg (by omega)]
  · unfold OptimisationProblem.compute_grad_lagrange_function
    rw [if_neg (by omega)]

/-- Witness for C10 at `exUnconstrained` with an empty multiplier vector. -/
theorem lagrange_unconstrained_spec_witness :
    exUnconstrained.m + exUnconstrained.me = 0 ∧
    exUnconstrained.compute_lagrange_function [2, 3] []
      = Except.ok (exUnconstrained.objective [2, 3]) ∧
    exUnconstrained.compute_grad_lagrange_function [2, 3] []
      = (Except.ok (exUnconstrained.compute_grad_objective [2, 3] dx_default),
         exUnconstrained) :=
  ⟨rfl, (lagrange_unconstrained_spec exUnconstrained [2, 3] [] rfl).1,
    (lagrange_unconstrained_spec exUnconstrained [2, 3] [] rfl).2⟩

/-! ### C2: the objective gradient -/

/-- C2: `compute_grad_objective` returns exactly the analytic gradient
callable's value when one is supplied; otherwise it returns the vector whose
`i`-th component is the central difference
`(f(x + dx·e_i) - f(x - dx·e_i)) / (2·dx)` for every component `i`. -/
theorem compute_grad_objective_spec (p : OptimisationProblem) (x : Vec) (dx : ℚ) :
    (∀ g, p.grad_objective = some g → p.compute_grad_objective x dx = g x) ∧
    (p.grad_objective = none →
      (p.compute_grad_objective x dx).length = x.length ∧
      ∀ i, i < x.length →
        (p.compute_grad_objective x dx).getD i 0 =
          (p.objective (x.set i (x.getD i 0 + dx)) - p.objective (x.set i (x.getD i 0 - dx)))
            / (2 * dx)) := by
  constructor
  · intro g hg
    unfold OptimisationProblem.compute_grad_objective
    rw [hg]
  · intro hg
    have key : p.compute_grad_objective x dx =
        (List.range x.length).map (fun i =>
          (p.objective (x.set i (x.getD i 0 + dx)) - p.objective (x.set i (x.getD i 0 - dx)))
            / (2 * dx)) := by
      unfold OptimisationProblem.compute_grad_objective
      rw [hg]
      rw [gradObjectiveLoop_spec p.objective x dx (List.range x.length)
        (fun i hi => List.mem_range.mp hi)]
    constructor
    · rw [key]
      simp
    · intro i hi
      rw [key]
      exact getD_map_range _ _ _ hi

/-- Witness for C2: the numerical path on `f(v) = v0²` at `x = [3]` with
`dx = 1` gives `((3+1)² - (3-1)²) / 2 = 6`. -/
theorem compute_grad_objective_spec_witness :
    exUnconstrained.grad_objective = none ∧
    (exUnconstrained.compute_grad_objective [3] 1).length = 1 ∧
    (exUnconstrained.compute_grad_objective [3] 1).getD 0 0 = 6 := by
  have h := (compute_grad_objective_spec exUnconstrained [3] 1).2 rfl
  refine ⟨rfl, h.1, ?_⟩
  rw [h.2 0 (by norm_num)]
  norm_num [exUnconstrained]

/-! ### C8: immutability of `OptimisationResult` -/

/-- C8: every `OptimisationResult` is immutable: any attribute assignment, to
any field with any value, raises `FrozenInstanceError` instead of mutating the
value, and each field observed equals the field given at construction. -/
theorem optimisation_result_frozen (r : OptimisationResult) (fld : ResultField)
    (v : AttrValue) (it : ℤ) (xv : Vec) (st : OptimiserState) (ob : Option ℚ)
    (lmv ic ec stp : Option Vec) :
    r.set_attr fld v = Except.error "FrozenInstanceError" ∧
    (OptimisationResult.mk it xv st ob lmv ic ec stp).iteration = it ∧
    (OptimisationResult.mk it xv st ob lmv ic ec stp).x = xv ∧
    (OptimisationResult.mk it xv st ob lmv ic ec stp).state = st ∧
    (OptimisationResult.mk it xv st ob lmv ic ec stp).objective = ob ∧
    (OptimisationResult.mk it xv st ob lmv ic ec stp).lm = lmv ∧
    (OptimisationResult.mk it xv st ob lmv ic ec stp).i_constraints = ic ∧
    (OptimisationResult.mk it xv st ob lmv ic ec stp).e_constraints = ec ∧
    (OptimisationResult.mk it xv st ob lmv ic ec stp).step = stp :=
  ⟨rfl, rfl, rfl, rfl, rfl, rfl, rfl, rfl, rfl⟩

/-! ### C7: construction performs no validation -/

/-- C7 counterexample: constructing a problem whose inequality-constraint list
has two entries while the corresponding gradient list has only one succeeds
(no usage error is raised at construction time). -/
theorem initE_mismatched_lists_ok :
    (OptimisationProblem.initE (fun v => v.getD 0 0) none none none
      (some [fun v => v.getD 0 0, fun v => v.getD 1 0])
      (some [fun _ => [1, 0]]) none none none).isOk = true ∧
    ((some [fun v => v.getD 0 0, fun v => v.getD 1 0] : Option (List (Vec → ℚ))).getD
      []).length = 2 ∧
    ((some [fun _ => ([1, 0] : Vec)] : Option (List (Vec → Vec))).getD []).length = 1 :=
  ⟨rfl, rfl, rfl⟩

/-- C7 (amended): `__init__` raises nothing: for every argument combination —
including a constraint list and gradient list of different lengths —
construction succeeds synchronously and stores the arguments unchanged, with
the evaluation counter at zero. -/
theorem initE_total (objective : Vec → ℚ) (go : Option (Vec → Vec)) (lb ub : Option Vec)
    (ic : Option (List (Vec → ℚ))) (gic : Option (List (Vec → Vec)))
    (ec : Option (List (Vec → ℚ))) (gec : Option (List (Vec → Vec)))
    (mins : Option (List Vec)) :
    OptimisationProblem.initE objective go lb ub ic gic ec gec mins
      = Except.ok (OptimisationProblem.mk objective go lb ub ic gic ec gec mins 0) :=
  rfl

/-! ### C1: the analytic constraint-gradient path -/

/-- C1 (amended): on a constrained problem with at least one analytic
constraint-gradient list supplied, `compute_grad_constraints` evaluates only
the supplied analytic gradient callables — the finite-difference path is never
entered and the object is returned unchanged — and returns one row per entry
of the concatenated analytic gradient lists (grad-inequalities then
grad-equalities) when `selection` is `None`, or one row per selection index,
in selection order, otherwise. -/
theorem compute_grad_constraints_analytic_spec (p : OptimisationProblem) (x : Vec) (dx : ℚ)
    (hc : 0 < p.m + p.me)
    (hg : p.grad_i_constraints.isSome ∨ p.grad_e_constraints.isSome) :
    p.compute_grad_constraints x dx none
      = (Except.ok ((p.grad_i_constraints.getD [] ++ p.grad_e_constraints.getD []).map
          (fun grad => grad x)), p) ∧
    (∀ sel, (∀ i ∈ sel,
        i < (p.grad_i_constraints.getD [] ++ p.grad_e_constraints.getD []).length) →
      p.compute_grad_constraints x dx (some sel)
        = (Except.ok (sel.map (fun i =>
            (p.grad_i_constraints.getD [] ++ p.grad_e_constraints.getD []).getD i
              (fun _ => []) x)), p)) := by
  have hb : (p.grad_i_constraints.isSome || p.grad_e_constraints.isSome) = true := by
    rcases hg with h | h <;> simp [h]
  constructor
  · exact compute_grad_constraints_analytic_none p x dx hc hb
  · intro sel hsel
    have hs := selectList_map_getD (p.grad_i_constraints.getD [] ++ p.grad_e_constraints.getD [])
      (fun _ => []) sel hsel
    rw [compute_grad_constraints_analytic_some p x dx sel _ hc hb hs]
    rw [List.map_map]
    rfl

/-- C1 counterexample: on `exMismatchedGrads` — two constraints in the
concatenated ordering, analytic gradients supplied only for the inequality —
the analytic path returns a Jacobian with a single row, not one row per
constraint. -/
theorem compute_grad_constraints_row_deficit :
    (Except.map List.length (exMismatchedGrads.compute_grad_constraints [0] dx_default none).1
      = Except.ok 1) ∧
    exMismatchedGrads.m + exMismatchedGrads.me = 2 :=
  ⟨rfl, rfl⟩

/-- Witness for C1 at `exMismatchedGrads` with `x = [5]`: the single analytic
gradient callable is evaluated and the object is unchanged. -/
theorem compute_grad_constraints_analytic_spec_witness :
    exMismatchedGrads.compute_grad_constraints [5] 1 none
      = (Except.ok [[1]], exMismatchedGrads) ∧
    exMismatchedGrads.compute_grad_constraints [5] 1 (some [0])
      = (Except.ok [[1]], exMismatchedGrads) := by
  have h := compute_grad_constraints_analytic_spec exMismatchedGrads [5] 1 (by decide)
    (Or.inl rfl)
  exact ⟨h.1.trans rfl, (h.2 [0] (by decide)).trans rfl⟩

/-! ### C4: the evaluation counter -/

/-- C4: `grad_constraints_evaluations` increases by exactly one on every
`compute_grad_constraints` call that takes the numerical finite-difference
path and returns normally; a call that uses analytic gradient callables, and
every erroring call (in particular the unconstrained-problem error), leaves
the object — counter included — unchanged.  (The remaining operations are
embedded as pure functions of the problem, as their source bodies assign no
attribute.) -/
theorem grad_constraints_evaluations_counter (p : OptimisationProblem) (x : Vec)
    (dx : ℚ) (selection : Option (List ℕ)) :
    (p.grad_i_constraints = none → p.grad_e_constraints = none →
      ∀ J p1, p.compute_grad_constraints x dx selection = (Except.ok J, p1) →
        p1.grad_constraints_evaluations = p.grad_constraints_evaluations + 1) ∧
    ((p.grad_i_constraints.isSome ∨ p.grad_e_constraints.isSome) →
      (p.compute_grad_constraints x dx selection).2 = p) ∧
    (∀ e p1, p.compute_grad_constraints x dx selection = (Except.error e, p1) → p1 = p) := by
  refine ⟨?_, ?_, ?_⟩
  · intro hgi hge J p1 h
    rw [compute_grad_constraints_num_ok p x dx selection hgi hge J p1 h]
  · intro hg
    exact compute_grad_constraints_analytic_snd p x dx selection hg
  · intro e p1 h
    exact compute_grad_constraints_error_snd p x dx selection e p1 h

/-- Witness for C4: a numerical call on `exNumerical` increments the counter
by one; the analytic call on `exMismatchedGrads` and the erroring call on
`exUnconstrained` leave their objects unchanged. -/
theorem grad_constraints_evaluations_counter_witness :
    ((exNumerical.compute_grad_constraints [1] 1 none).2).grad_constraints_evaluations
      = exNumerical.grad_constraints_evaluations + 1 ∧
    (exMismatchedGrads.compute_grad_constraints [1] 1 none).2 = exMismatchedGrads ∧
    ((exUnconstrained.compute_grad_constraints [1] 1 none).2) = exUnconstrained := by
  have hcall : exNumerical.compute_grad_constraints [1] 1 none
      = (Except.ok [[2]], { exNumerical with grad_constraints_evaluations := 1 }) := by
    norm_num [exNumerical, OptimisationProblem.compute_grad_constraints,
      OptimisationProblem.m, OptimisationProblem.me, gradConstraintsLoop,
      OptimisationProblem.compute_constraints, colsToRows, List.range_succ]
  refine ⟨?_, ?_, ?_⟩
  · have h1 := (grad_constraints_evaluations_counter exNumerical [1] 1 none).1 rfl rfl
      [[2]] { exNumerical with grad_constraints_evaluations := 1 } hcall
    rw [hcall]
    exact h1
  · exact (grad_constraints_evaluations_counter exMismatchedGrads [1] 1 none).2.1
      (Or.inl rfl)
  · exact (grad_constraints_evaluations_counter exUnconstrained [1] 1 none).2.2
      "Unconstrained problem." exUnconstrained rfl

/-! ### C5: selection preserves order and length -/

/-- C5: with a valid selection on a constrained problem, `compute_constraints`
returns one value per selection index, in selection order: the result is
`selection` mapped over the full constraint vector, so entry `j` equals the
full vector's entry at index `selection[j]`. -/
theorem compute_constraints_selection_spec (p : OptimisationProblem) (x : Vec)
    (sel : List ℕ) (hc : 0 < p.m + p.me) (hsel : ∀ i ∈ sel, i < p.m + p.me) :
    p.compute_constraints x none
      = Except.ok ((p.i_constraints.getD [] ++ p.e_constraints.getD []).map (fun c => c x)) ∧
    p.compute_constraints x (some sel)
      = Except.ok (sel.map (fun i =>
          ((p.i_constraints.getD [] ++ p.e_constraints.getD []).map (fun c => c x)).getD i 0)) := by
  have hlen : ∀ i ∈ sel, i < (p.i_constraints.getD [] ++ p.e_constraints.getD []).length := by
    intro i hi
    rw [constraints_length]
    exact hsel i hi
  refine ⟨compute_constraints_none p x hc, ?_⟩
  rw [compute_constraints_some p x sel _ hc
    (selectList_map_getD (p.i_constraints.getD [] ++ p.e_constraints.getD [])
      (fun _ => 0) sel hlen)]
  congr 1
  rw [List.map_map]
  apply List.map_congr_left
  intro i hi
  exact (getD_map_of_lt (fun c => c x) _ i 0 (fun _ => 0) (hlen i hi)).symm

/-- Witness for C5: on the three-constraint problem at `x = [10]` the full
vector is `[10, 11, 12]` and `selection=[2,0]` returns `[12, 10]`. -/
theorem compute_constraints_selection_spec_witness :
    exThreeConstraints.compute_constraints [10] none = Except.ok [10, 11, 12] ∧
    exThreeConstraints.compute_constraints [10] (some [2, 0]) = Except.ok [12, 10] := by
  have h := compute_constraints_selection_spec exThreeConstraints [10] [2, 0] (by decide)
    (by decide)
  refine ⟨h.1.trans ?_, h.2.trans ?_⟩ <;> norm_num [exThreeConstraints]

/-! ### C9: the finite-difference frame -/

/-- C9: the finite-difference paths leave their input unchanged: each loop
hands back its internal working copy restored to the entry vector (every
perturbation is undone coordinate by coordinate), and `compute_grad_constraints`
modifies no attribute of the problem other than (possibly)
`grad_constraints_evaluations`. -/
theorem finite_difference_frame (p : OptimisationProblem) (x : Vec) (dx : ℚ)
    (selection : Option (List ℕ)) :
    (gradObjectiveLoop p.objective x dx (List.range x.length) x).2 = x ∧
    (∀ cols xlf, gradConstraintsLoop p dx selection (List.range x.length) x
      = Except.ok (cols, xlf) → xlf = x) ∧
    (p.compute_grad_constraints x dx selection).2.objective = p.objective ∧
    (p.compute_grad_constraints x dx selection).2.grad_objective = p.grad_objective ∧
    (p.compute_grad_constraints x dx selection).2.lb = p.lb ∧
    (p.compute_grad_constraints x dx selection).2.ub = p.ub ∧
    (p.compute_grad_constraints x dx selection).2.i_constraints = p.i_constraints ∧
    (p.compute_grad_constraints x dx selection).2.grad_i_constraints = p.grad_i_constraints ∧
    (p.compute_grad_constraints x dx selection).2.e_constraints = p.e_constraints ∧
    (p.compute_grad_constraints x dx selection).2.grad_e_constraints = p.grad_e_constraints ∧
    (p.compute_grad_constraints x dx selection).2.minima = p.minima := by
  refine ⟨congrArg Prod.snd (gradObjectiveLoop_spec p.objective x dx (List.range x.length)
    (fun i hi => List.mem_range.mp hi)), ?_, ?_⟩
  · intro cols xlf h
    exact gradConstraintsLoop_restores p dx selection (List.range x.length) x
      (fun i hi => List.mem_range.mp hi) cols xlf h
  · rcases compute_grad_constraints_snd_cases p x dx selection with h | h <;> rw [h] <;>
      exact ⟨rfl, rfl, rfl, rfl, rfl, rfl, rfl, rfl, rfl⟩

/-- Witness for C9 at `exNumerical`, `x = [1]`, `dx = 1`: the objective loop
hands back `[1]`, the constraint loop returns its columns with the working
copy restored to `[1]`, and the constraint list survives a numerical call. -/
theorem finite_difference_frame_witness :
    (gradObjectiveLoop exNumerical.objective [1] 1 (List.range 1) [1]).2 = [1] ∧
    ([1] : Vec) = [1] ∧
    (exNumerical.compute_grad_constraints [1] 1 none).2.i_constraints
      = exNumerical.i_constraints := by
  have h := finite_difference_frame exNumerical [1] 1 none
  have hloop : gradConstraintsLoop exNumerical 1 none (List.range ([1] : Vec).length) [1]
      = Except.ok ([[2]], [1]) := by
    norm_num [exNumerical, gradConstraintsLoop, OptimisationProblem.compute_constraints,
      OptimisationProblem.m, OptimisationProblem.me, List.range_succ]
  exact ⟨h.1, h.2.1 [[2]] [1] hloop, h.2.2.2.2.2.2.1⟩

/-! ### C6: the Lagrange function and its gradient -/

/-- C6: with `len(lm) ≥ m+me`, `compute_lagrange_function` returns the
objective plus the multiplier-weighted sum of all constraint values in the
concatenated ordering, and `compute_grad_lagrange_function` returns,
componentwise, the objective gradient plus the multiplier-weighted sum of the
rows of the constraint Jacobian it computes (when that Jacobian has a row of
matching width per constraint). -/
theorem compute_lagrange_function_spec (p : OptimisationProblem) (x lm : Vec)
    (hlm : p.m + p.me ≤ lm.length) :
    p.compute_lagrange_function x lm
      = Except.ok (p.objective x + ((List.range (p.m + p.me)).map (fun i =>
          lm.getD i 0 *
          ((p.i_constraints.getD [] ++ p.e_constraints.getD []).map
            (fun c => c x)).getD i 0)).sum) ∧
    (∀ J p1, p.compute_grad_constraints x dx_default none = (Except.ok J, p1) →
      p.m + p.me ≤ J.length →
      (∀ i, i < p.m + p.me →
        (J.getD i []).length = (p.compute_grad_objective x dx_default).length) →
      p.compute_grad_lagrange_function x lm
        = (Except.ok ((List.range (p.compute_grad_objective x dx_default).length).map
            (fun j => (p.compute_grad_objective x dx_default).getD j 0 +
              ((List.range (p.m + p.me)).map (fun i =>
                lm.getD i 0 * (J.getD i []).getD j 0)).sum)), p1)) := by
  constructor
  · by_cases h0 : 0 < p.m + p.me
    · unfold OptimisationProblem.compute_lagrange_function
      rw [if_pos h0]
      simp only [compute_constraints_none p x h0]
      have hcond : ∀ i ∈ List.range (p.m + p.me), i < lm.length ∧
          i < ((p.i_constraints.getD [] ++ p.e_constraints.getD []).map
            (fun c => c x)).length := by
        intro i hi
        have hi2 := List.mem_range.mp hi
        refine ⟨by omega, ?_⟩
        rw [List.length_map, constraints_length]
        omega
      rw [lagrangeLoop_spec lm _ _ (p.objective x) hcond]
    · unfold OptimisationProblem.compute_lagrange_function
      rw [if_neg h0]
      have h00 : p.m + p.me = 0 := by omega
      rw [h00]
      simp
  · intro J p1 hcall hJlen hrows
    by_cases h0 : 0 < p.m + p.me
    · unfold OptimisationProblem.compute_grad_lagrange_function
      rw [if_pos h0]
      simp only [hcall]
      have hcond : ∀ i ∈ List.range (p.m + p.me), i < lm.length ∧ i < J.length := by
        intro i hi
        have hi2 := List.mem_range.mp hi
        exact ⟨by omega, by omega⟩
      have hrow : ∀ i ∈ List.range (p.m + p.me),
          (J.getD i []).length = (p.compute_grad_objective x dx_default).length := by
        intro i hi
        exact hrows i (List.mem_range.mp hi)
      rw [gradLagrangeLoop_spec lm J (List.range (p.m + p.me))
        (p.compute_grad_objective x dx_default) hcond hrow]
    · exfalso
      have h00 : p.m + p.me = 0 := by omega
      unfold OptimisationProblem.compute_grad_constraints at hcall
      rw [if_pos h00] at hcall
      exact absurd (congrArg Prod.fst hcall) (by simp)

/-- Witness for C6 at `exLagrange`, `x = [2]`, `lm = [3]`: the Lagrangian is
`2² + 3·(2-1) = 7` and its gradient `[2·2 + 3·1] = [7]`. -/
theorem compute_lagrange_function_spec_witness :
    exLagrange.compute_lagrange_function [2] [3] = Except.ok 7 ∧
    exLagrange.compute_grad_lagrange_function [2] [3] = (Except.ok [7], exLagrange) := by
  have h := compute_lagrange_function_spec exLagrange [2] [3] (by decide)
  have hcall : exLagrange.compute_grad_constraints [2] dx_default none
      = (Except.ok [[1]], exLagrange) := by
    norm_num [exLagrange, OptimisationProblem.compute_grad_constraints,
      OptimisationProblem.m, OptimisationProblem.me]
  have hrows : ∀ i, i < exLagrange.m + exLagrange.me →
      (([[1]] : List Vec).getD i []).length
        = (exLagrange.compute_grad_objective [2] dx_default).length := by
    intro i hi
    have hi2 : i < 1 := by simpa [exLagrange, OptimisationProblem.m, OptimisationProblem.me]
      using hi
    obtain rfl : i = 0 := by omega
    norm_num [exLagrange, OptimisationProblem.compute_grad_objective]
  have h2 := h.2 [[1]] exLagrange hcall (by decide) hrows
  refine ⟨h.1.trans ?_, h2.trans ?_⟩
  · norm_num [exLagrange, OptimisationProblem.m, OptimisationProblem.me, List.range_succ]
  · norm_num [exLagrange, OptimisationProblem.m, OptimisationProblem.me,
      OptimisationProblem.compute_grad_objective, List.range_succ]
